import Mathlib

/-!
Verification development for the photon data-collection pipeline.

The Rust source is shallowly embedded: pure functions become Lean
functions, fallible functions return `Except`, and the effectful parts of
the runner are modelled by passing each component's observable behaviour
(a data source by the result of its `collect()` call, a sink by the
function from the delivered batch to its result).  Machine integers are
modelled by `Nat`/`Int` with explicit two's-complement wrapping where the
Rust code casts.  Timestamps (`DateTime<Utc>` / `DateTime<Tz>`) are
modelled as instants: integers counting seconds since an epoch; a
time-zone conversion such as `with_timezone(&Utc)` preserves the instant
and is therefore the identity on this representation.
-/

deriving instance DecidableEq for Except

namespace Photon

/-!
## Association-list model of `std::collections::HashMap`

Keys are unique in a `HashMap`; `insertKV` mirrors `HashMap::insert`
(replace the binding of an existing key, otherwise add a new one) and
`lookupKV` mirrors `HashMap::get`.  `keysNodup` is the representation
invariant every map reachable from `HashMap` operations satisfies.
-/

def insertKV {α : Type} (m : List (String × α)) (k : String) (v : α) :
    List (String × α) :=
  match m with
  | [] => [(k, v)]
  | (k', v') :: rest =>
    if k' = k then (k, v) :: rest else (k', v') :: insertKV rest k v

def lookupKV {α : Type} (m : List (String × α)) (k : String) : Option α :=
  match m with
  | [] => none
  | (k', v') :: rest => if k' = k then some v' else lookupKV rest k

/-- Number of entries of the map whose key is `k`. -/
def countKey {α : Type} (m : List (String × α)) (k : String) : Nat :=
  (m.filter (fun kv => decide (kv.1 = k))).length

/-- The `HashMap` representation invariant: keys are pairwise distinct. -/
def keysNodup {α : Type} (m : List (String × α)) : Prop :=
  (m.map Prod.fst).Nodup

instance {α : Type} (m : List (String × α)) : Decidable (keysNodup m) :=
  inferInstanceAs (Decidable (m.map Prod.fst).Nodup)

/-!
## `point.rs`: `Value`, `Point`, `PointBuilder`, `Points`
-/

/-- The `Value` enum of `point.rs`.  `Integer` holds a Rust `i64`;
`Float` holds an `f64` modelled by its 64-bit pattern (the `From<f64>`
conversion moves the value untouched, so the bit-pattern model is
exact); the string variant is named `Str` because `String` is taken in
Lean. -/
inductive Value : Type
  | Integer (val : Int)
  | Float (bits : Nat)
  | Boolean (b : Bool)
  | Str (s : String)
deriving DecidableEq, Repr

/-- Rust `n as i64` applied to a `u64` value `n < 2^64`: two's-complement
reinterpretation. -/
def i64OfU64 (n : Nat) : Int :=
  if n < 2 ^ 63 then (n : Int) else (n : Int) - 2 ^ 64

/-- `impl From<i8> for Value` (the `as i64` widening of a value in the
`i8` range is value-preserving). -/
def Value.fromI8 (val : Int) : Value := .Integer val

/-- `impl From<i16> for Value`. -/
def Value.fromI16 (val : Int) : Value := .Integer val

/-- `impl From<i32> for Value`. -/
def Value.fromI32 (val : Int) : Value := .Integer val

/-- `impl From<i64> for Value`. -/
def Value.fromI64 (val : Int) : Value := .Integer val

/-- `impl From<u8> for Value` (widening, value-preserving). -/
def Value.fromU8 (val : Nat) : Value := .Integer val

/-- `impl From<u16> for Value`. -/
def Value.fromU16 (val : Nat) : Value := .Integer val

/-- `impl From<u32> for Value`. -/
def Value.fromU32 (val : Nat) : Value := .Integer val

/-- `impl From<u64> for Value`: the source performs `val as i64`, which
reinterprets the bits, wrapping values at or above `2^63`. -/
def Value.fromU64 (val : Nat) : Value := .Integer (i64OfU64 val)

/-- `impl From<f64> for Value`. -/
def Value.fromF64 (bits : Nat) : Value := .Float bits

/-- The `Point` struct of `point.rs`; `tags` and `fields` are `HashMap`s
modelled as association lists, `timestamp` an optional instant. -/
structure Point where
  name : String
  tags : List (String × String)
  fields : List (String × Value)
  timestamp : Option Int
deriving DecidableEq, Repr

def Point.new (name : String) : Point :=
  { name := name, tags := [], fields := [], timestamp := none }

/-- `PointBuilder` wraps a point under construction. -/
structure PointBuilder where
  point : Point
deriving DecidableEq, Repr

def Point.builder (name : String) : PointBuilder := ⟨Point.new name⟩

def PointBuilder.tag (b : PointBuilder) (key value : String) : PointBuilder :=
  ⟨{ b.point with tags := insertKV b.point.tags key value }⟩

def PointBuilder.field (b : PointBuilder) (key : String) (value : Value) : PointBuilder :=
  ⟨{ b.point with fields := insertKV b.point.fields key value }⟩

def PointBuilder.timestamp (b : PointBuilder) (ts : Int) : PointBuilder :=
  ⟨{ b.point with timestamp := some ts }⟩

def PointBuilder.build (b : PointBuilder) : Point := b.point

/-- The `Points` struct: an ordered sequence of points. -/
structure Points where
  points : List Point
deriving DecidableEq, Repr

def Points.new : Points := ⟨[]⟩

/-- `Points::add` (`Vec::push`). -/
def Points.add (ps : Points) (p : Point) : Points := ⟨ps.points ++ [p]⟩

/-- `Points::tag_all`: insert `key → value` into every contained point's
tag map. -/
def Points.tag_all (ps : Points) (key value : String) : Points :=
  ⟨ps.points.map (fun p => { p with tags := insertKV p.tags key value })⟩

/-- `Points::merge_with`: append the other batch's points. -/
def Points.merge_with (ps other : Points) : Points :=
  ⟨ps.points ++ other.points⟩

/-!
## `topology.rs`: components, topology and the runner
-/

/-- The `Component<T>` struct. -/
structure Component (α : Type) where
  name : String
  component : α

/-- A data source, modelled by the result its `collect()` call returns.
Errors are `Box<dyn Error>`, modelled by an arbitrary error type `ε`. -/
def SourceInst (ε : Type) : Type := Except ε Points

/-- A sink, modelled by the function from the delivered batch to the
result of its `sink(&points)` call. -/
def SinkInst (ε : Type) : Type := Points → Except ε Unit

/-- The `Topology` struct. -/
structure Topology (ε : Type) where
  data_sources : List (Component (SourceInst ε))
  sinks : List (Component (SinkInst ε))

/-- The free function `collect` of `topology.rs`: run the source's
`collect()`, then stamp every point with the tag `source = name`. -/
def Topology.collect {ε : Type} (name : String) (data_source : SourceInst ε) :
    Except ε Points :=
  match data_source with
  | .error e => .error e
  | .ok pts => .ok (pts.tag_all "source" name)

/-- The first loop of `run`: fold the sources into one accumulating
batch, aborting at the first failure. -/
def runSources {ε : Type} (points : Points) :
    List (Component (SourceInst ε)) → Except ε Points
  | [] => .ok points
  | ds :: rest =>
    match Topology.collect ds.name ds.component with
    | .error e => .error e
    | .ok pts => runSources (points.merge_with pts) rest

/-- The second loop of `run`: deliver the accumulated batch to each sink
in order, aborting at the first failure. -/
def runSinks {ε : Type} (points : Points) :
    List (Component (SinkInst ε)) → Except ε Unit
  | [] => .ok ()
  | s :: rest =>
    match s.component points with
    | .error e => .error e
    | .ok _ => runSinks points rest

/-- `run` of `topology.rs`. -/
def run {ε : Type} (topology : Topology ε) : Except ε Unit :=
  match runSources Points.new topology.data_sources with
  | .error e => .error e
  | .ok points => runSinks points topology.sinks

/-!
## `source/mod.rs`, `sink/mod.rs`: the component registries
-/

/-- The `GlobalConfig` struct; `NaiveDate` is modelled as the integer day
number of the calendar date. -/
structure GlobalConfig where
  from_date : Int
  to_date : Int
deriving DecidableEq, Repr

/-- A minimal model of `toml::Value`; the code under study only passes
these values through to the registered builders. -/
inductive Toml : Type
  | str (s : String)
  | int (n : Int)
  | float (bits : Nat)
  | boolean (b : Bool)
  | arr (xs : List Toml)
  | table (entries : List (String × Toml))

/-- The `Error` enum of `source/mod.rs` (`toml::de::Error` and the boxed
build cause are modelled by their messages). -/
inductive SourceError : Type
  | Unknown (name : String)
  | Toml (msg : String)
  | Config (cause : String) (name : String)
deriving DecidableEq, Repr

/-- The `Error` enum of `sink/mod.rs`. -/
inductive SinkError : Type
  | Unknown (name : String)
  | Toml (msg : String)
  | Config (cause : String) (name : String)
deriving DecidableEq, Repr

/-- A source `Registration`: a name plus the builder closure produced by
`Registration::new`. -/
structure SourceRegistration (ε : Type) where
  name : String
  builder : String → Toml → GlobalConfig → Except SourceError (SourceInst ε)

/-- A sink `Registration`. -/
structure SinkRegistration (ε : Type) where
  name : String
  builder : String → Toml → Except SinkError (SinkInst ε)

/-- `source::Registration::build`: collect the inventory of registrations
into a `HashMap` keyed by name (later duplicates win, as in
`collect::<HashMap<_, _>>`), then look the requested name up; a miss is
`Error::Unknown(name)`. -/
def SourceRegistration.build {ε : Type} (regs : List (SourceRegistration ε))
    (name : String) (value : Toml) (global_config : GlobalConfig) :
    Except SourceError (SourceInst ε) :=
  match lookupKV (regs.foldl (fun m r => insertKV m r.name r) []) name with
  | none => .error (.Unknown name)
  | some r => r.builder name value global_config

/-- `sink::Registration::build`. -/
def SinkRegistration.build {ε : Type} (regs : List (SinkRegistration ε))
    (name : String) (value : Toml) : Except SinkError (SinkInst ε) :=
  match lookupKV (regs.foldl (fun m r => insertKV m r.name r) []) name with
  | none => .error (.Unknown name)
  | some r => r.builder name value

/-!
## `config.rs`: building the topology from the parsed configuration

The file reading, TOML parsing and `from_date`/`to_date` resolution are
external collaborators; what is embedded is the component-building part
of `config.rs::read`.  The configuration's `sources` and `sinks` are
`HashMap<String, toml::Value>` values; a `HashMap` enumerates its entries
in an unspecified order, so the maps are given here as entry lists in
iteration order — some permutation of the order the entries are declared
in the file.
-/

/-- The `Error` enum of `config.rs` (variants for stages kept external
carry their message). -/
inductive ConfigError : Type
  | ReadFile (msg : String)
  | DateFormat (name : String)
  | Toml (msg : String)
  | Source (cause : SourceError) (name : String)
  | Sink (cause : SinkError) (name : String)
deriving DecidableEq, Repr

/-- The source-building loop of `config.rs::read`
(`into_iter().map(..).collect::<Result<Vec<_>, _>>()`: first error
aborts, order preserved). -/
def buildSources {ε : Type} (srcRegs : List (SourceRegistration ε))
    (global_config : GlobalConfig) :
    List (String × Toml) → Except ConfigError (List (Component (SourceInst ε)))
  | [] => .ok []
  | (k, v) :: rest =>
    match SourceRegistration.build srcRegs k v global_config with
    | .error e => .error (.Source e k)
    | .ok component =>
      match buildSources srcRegs global_config rest with
      | .error e => .error e
      | .ok comps => .ok ({ name := k, component := component } :: comps)

/-- The sink-building loop of `config.rs::read`. -/
def buildSinks {ε : Type} (snkRegs : List (SinkRegistration ε)) :
    List (String × Toml) → Except ConfigError (List (Component (SinkInst ε)))
  | [] => .ok []
  | (k, v) :: rest =>
    match SinkRegistration.build snkRegs k v with
    | .error e => .error (.Sink e k)
    | .ok component =>
      match buildSinks snkRegs rest with
      | .error e => .error e
      | .ok comps => .ok ({ name := k, component := component } :: comps)

/-- The component-building part of `config.rs::read`: build all sources
first, then all sinks, propagating the first failure. -/
def readTopology {ε : Type} (srcRegs : List (SourceRegistration ε))
    (snkRegs : List (SinkRegistration ε)) (global_config : GlobalConfig)
    (sources : List (String × Toml)) (sinks : List (String × Toml)) :
    Except ConfigError (Topology ε) :=
  match buildSources srcRegs global_config sources with
  | .error e => .error e
  | .ok data_sources =>
    match buildSinks snkRegs sinks with
    | .error e => .error e
    | .ok sinks' => .ok { data_sources := data_sources, sinks := sinks' }

/-!
## `source/rte/mod.rs`: day enumeration, table parsing, conversion
-/

/-- `DaysIterator` / `iter_days` of `source/rte/mod.rs`: `NaiveDate` is
modelled as the integer day number of the calendar date (`succ()` adds
one day, the date order is the integer order). -/
def iter_days (fromDay toDay : Int) : List Int :=
  if h : fromDay ≤ toDay then fromDay :: iter_days (fromDay + 1) toDay else []
termination_by (toDay + 1 - fromDay).toNat
decreasing_by
  simp_wf
  omega

/-- UTF-8 bytes of an ASCII string (every fixed byte constant of the
source is ASCII, where a character's code point is its byte). -/
def strBytes (s : String) : List Nat := s.data.map Char.toNat

/-- `String::from_utf8_lossy`, modelled byte-per-byte: an ASCII byte
decodes to its character, anything else to the replacement character.
(Rust also decodes multi-byte UTF-8 sequences; every byte string these
claims exercise is ASCII, where the two agree exactly.) -/
def fromUtf8Lossy (bs : List Nat) : String :=
  String.mk (bs.map (fun b => if b < 128 then Char.ofNat b else Char.ofNat 0xFFFD))

/-- The fixed sentinel trailer of the eco2mix table. -/
def END_RECORD : List Nat := strBytes "RTE ne pourra"

/-- A `csv::ByteRecord`: the columns of one row, each a byte string. -/
abbrev ByteRecord : Type := List (List Nat)

/-- `is_end_record`: the row's first column starts with the fixed
sentinel prefix (`get(..len)` is `None` when the column is shorter than
the sentinel, making the comparison `false`). -/
def is_end_record (record : ByteRecord) : Bool :=
  match record[0]? with
  | none => false
  | some t =>
    if END_RECORD.length ≤ t.length then decide (t.take END_RECORD.length = END_RECORD)
    else false

/-- The `DataError` enum (`Date` abstracts `chrono::ParseError`; `Parse`
keeps the failing field's name and drops the boxed cause). -/
inductive DataError : Type
  | InvalidScope (scope : String)
  | MissingField (name : String)
  | Date
  | Parse (name : String)
deriving DecidableEq, Repr

def isDigitChar (c : Char) : Bool := decide ('0' ≤ c ∧ c ≤ '9')

/-- Decimal value of a digit string, `none` on a non-digit. -/
def parseDigits (cs : List Char) : Option Nat :=
  if cs = [] then none
  else
    cs.foldl
      (fun acc c =>
        match acc with
        | some a => if isDigitChar c then some (a * 10 + (c.toNat - 48)) else none
        | none => none)
      (some 0)

/-- Rust `u64::from_str`: optional leading plus sign, decimal digits,
value below `2^64`. -/
def parseU64 (s : String) : Option Nat :=
  let cs := match s.data with
    | '+' :: rest => rest
    | l => l
  match parseDigits cs with
  | some n => if n < 2 ^ 64 then some n else none
  | none => none

/-- Rust `i64::from_str`: optional sign, decimal digits, value in the
`i64` range. -/
def parseI64 (s : String) : Option Int :=
  match s.data with
  | '-' :: rest =>
    match parseDigits rest with
    | some n => if (n : Int) ≤ 2 ^ 63 then some (-(n : Int)) else none
    | none => none
  | '+' :: rest =>
    match parseDigits rest with
    | some n => if n < 2 ^ 63 then some (n : Int) else none
    | none => none
  | l =>
    match parseDigits l with
    | some n => if n < 2 ^ 63 then some (n : Int) else none
    | none => none

def isLeapYear (y : Int) : Bool :=
  decide (y % 4 = 0 ∧ (y % 100 ≠ 0 ∨ y % 400 = 0))

def daysInMonth (y : Int) (m : Nat) : Nat :=
  if m = 2 then (if isLeapYear y then 29 else 28)
  else if m = 4 ∨ m = 6 ∨ m = 9 ∨ m = 11 then 30
  else 31

/-- `NaiveDate::parse_from_str(s, "%Y-%m-%d")`: year, month and day as
digit runs separated by dashes, the whole string consumed, the result a
valid calendar date.  (chrono's flexible numeric widths are reduced to
one-or-more year digits and one-or-two month/day digits; no claim
depends on the reduced corner cases.) -/
def parseDateYmd (s : String) : Option (Int × Nat × Nat) :=
  match s.data.span isDigitChar with
  | ([], _) => none
  | (ys, '-' :: rest₁) =>
    match rest₁.span isDigitChar with
    | ([], _) => none
    | (ms, '-' :: rest₃) =>
      match rest₃.span isDigitChar with
      | (ds, rest₄) =>
        if ds = [] ∨ rest₄ ≠ [] ∨ 2 < ms.length ∨ 2 < ds.length then none
        else
          match parseDigits ys, parseDigits ms, parseDigits ds with
          | some y, some mo, some d =>
            if 1 ≤ mo ∧ mo ≤ 12 ∧ 1 ≤ d ∧ d ≤ daysInMonth (y : Int) mo then
              some ((y : Int), mo, d)
            else none
          | _, _, _ => none
    | _ => none
  | _ => none

/-- `NaiveTime::parse_from_str(s, "%H:%M")`. -/
def parseTimeHm (s : String) : Option (Nat × Nat) :=
  match s.data.span isDigitChar with
  | ([], _) => none
  | (hs, ':' :: rest₁) =>
    match rest₁.span isDigitChar with
    | (ms, rest₂) =>
      if ms = [] ∨ rest₂ ≠ [] ∨ 2 < hs.length ∨ 2 < ms.length then none
      else
        match parseDigits hs, parseDigits ms with
        | some h, some m => if h ≤ 23 ∧ m ≤ 59 then some (h, m) else none
        | _, _ => none
  | _ => none

/-- Day number (days since 1970-01-01) of a proleptic-Gregorian civil
date. -/
def daysFromCivil (y : Int) (m d : Nat) : Int :=
  let y' : Int := if m ≤ 2 then y - 1 else y
  let era : Int := (if 0 ≤ y' then y' else y' - 399) / 400
  let yoe : Int := y' - era * 400
  let mp : Int := if m ≤ 2 then (m : Int) + 9 else (m : Int) - 3
  let doy : Int := (153 * mp + 2) / 5 + (d : Int) - 1
  let doe : Int := yoe * 365 + yoe / 4 - yoe / 100 + doy
  era * 146097 + doe - 719468

/-- `Paris.ymd(..).and_hms(..)` followed by `.with_timezone(&Utc)`: the
instant, in seconds since the epoch, of the given Europe/Paris civil
time.  Europe/Paris is modelled at its standard offset (UTC+1); no claim
in this development depends on the DST-dependent part of the offset, and
a time-zone conversion preserves the instant. -/
def parisYmdHms (y : Int) (mo d hh mi ss : Nat) : Int :=
  daysFromCivil y mo d * 86400 + (hh : Int) * 3600 + (mi : Int) * 60 + (ss : Int) - 3600

/-- The `DailyRow` struct (`u64` quantities as `Nat`, the signed
pumped-storage balance as `Int`, the timestamp as an instant). -/
structure DailyRow where
  date : Int
  generation_total : Nat
  prediction_yesterday : Nat
  prediction_now : Nat
  oil : Nat
  coal : Nat
  gas : Nat
  nuclear : Nat
  wind : Nat
  solar : Nat
  hydro : Nat
  pumped_storage : Int
  bioenergy : Nat
  co2 : Nat
deriving DecidableEq, Repr

/-- `DailyRow::get_field` at `S = u64`. -/
def getFieldU64 (record : ByteRecord) (index : Nat) (name : String) :
    Except DataError Nat :=
  match record[index]? with
  | none => .error (.MissingField name)
  | some bs =>
    match parseU64 (fromUtf8Lossy bs) with
    | none => .error (.Parse name)
    | some n => .ok n

/-- `DailyRow::get_field` at `S = i64`. -/
def getFieldI64 (record : ByteRecord) (index : Nat) (name : String) :
    Except DataError Int :=
  match record[index]? with
  | none => .error (.MissingField name)
  | some bs =>
    match parseI64 (fromUtf8Lossy bs) with
    | none => .error (.Parse name)
    | some n => .ok n

/-- `DailyRow::from_record`. -/
def DailyRow.from_record (record : ByteRecord) : Except DataError DailyRow :=
  match record[0]? with
  | none => .error (.MissingField "Perimetre")
  | some scope =>
    if scope ≠ strBytes "France" then .error (.InvalidScope (fromUtf8Lossy scope))
    else
      match record[2]? with
      | none => .error (.MissingField "Date")
      | some dateBytes =>
        match parseDateYmd (fromUtf8Lossy dateBytes) with
        | none => .error .Date
        | some (y, mo, dy) =>
          match record[3]? with
          | none => .error (.MissingField "Time")
          | some timeBytes =>
            match parseTimeHm (fromUtf8Lossy timeBytes) with
            | none => .error .Date
            | some (hh, mi) => do
              let generation_total ← getFieldU64 record 4 "Generation"
              let prediction_yesterday ← getFieldU64 record 5 "Prediction D-1"
              let prediction_now ← getFieldU64 record 6 "Prediction"
              let oil ← getFieldU64 record 7 "Oil"
              let coal ← getFieldU64 record 8 "Coal"
              let gas ← getFieldU64 record 9 "Gas"
              let nuclear ← getFieldU64 record 10 "Nuclear"
              let wind ← getFieldU64 record 11 "Wind"
              let solar ← getFieldU64 record 12 "Solar"
              let hydro ← getFieldU64 record 13 "Hydro"
              let pumped_storage ← getFieldI64 record 14 "Pumped storage"
              let bioenergy ← getFieldU64 record 15 "Bioenergy"
              let co2 ← getFieldU64 record 17 "CO2"
              .ok
                { date := parisYmdHms y mo dy hh mi 0
                  generation_total := generation_total
                  prediction_yesterday := prediction_yesterday
                  prediction_now := prediction_now
                  oil := oil
                  coal := coal
                  gas := gas
                  nuclear := nuclear
                  wind := wind
                  solar := solar
                  hydro := hydro
                  pumped_storage := pumped_storage
                  bioenergy := bioenergy
                  co2 := co2 }

/-- `read` of `source/rte/mod.rs`, from the point where the csv reader
yields byte records: the reader consumes the header row
(`has_headers(true)`), so `records` here are the data rows in file
order.  Iteration stops (not an error) at a sentinel trailer row; any
row failure aborts with that row's error. -/
def read (records : List ByteRecord) : Except DataError (List DailyRow) :=
  match records with
  | [] => .ok []
  | record :: rest =>
    if is_end_record record then .ok []
    else
      match DailyRow.from_record record with
      | .error e => .error e
      | .ok row =>
        match read rest with
        | .error e => .error e
        | .ok rows => .ok (row :: rows)

/-- `impl From<DailyRow> for Point`. -/
def Point.ofDailyRow (line : DailyRow) : Point :=
  Point.builder "eco2mix"
    |>.field "generation_total" (Value.fromU64 line.generation_total)
    |>.field "oil" (Value.fromU64 line.oil)
    |>.field "coal" (Value.fromU64 line.coal)
    |>.field "gas" (Value.fromU64 line.gas)
    |>.field "nuclear" (Value.fromU64 line.nuclear)
    |>.field "wind" (Value.fromU64 line.wind)
    |>.field "solar" (Value.fromU64 line.solar)
    |>.field "hydro" (Value.fromU64 line.hydro)
    |>.field "pumped_storage" (Value.fromI64 line.pumped_storage)
    |>.field "bioenergy" (Value.fromU64 line.bioenergy)
    |>.field "co2" (Value.fromU64 line.co2)
    |>.timestamp line.date
    |>.build

/-- `impl From<Vec<DailyRow>> for Points`. -/
def Points.ofDailyRows (lines : List DailyRow) : Points :=
  ⟨lines.map Point.ofDailyRow⟩

/-!
## `source/rte/ecowatt.rs`: the EcoWatt signal source
-/

/-- One sub-daily EcoWatt value (`pas`/`hvalue`, both `u32`). -/
structure EcoWattValue where
  hour : Nat
  value : Nat
deriving DecidableEq, Repr

/-- One decoded EcoWatt signal; `day` is a `DateTime<Utc>` instant. -/
structure EcoWattSignal where
  day : Int
  day_value : Nat
  message : String
  values : List EcoWattValue
deriving DecidableEq, Repr

/-- The decoded EcoWatt response body. -/
structure EcowattResponse where
  signals : List EcoWattSignal
deriving DecidableEq, Repr

/-- The `Error` enum of `ecowatt.rs`. -/
inductive EcoError : Type
  | NoSignal
deriving DecidableEq, Repr

/-- The decoding-onward part of `EcoWatt::collect` (the HTTP fetch is an
external collaborator; `response` is the decoded body).
`Duration::hours(h)` is `3600 * h` seconds. -/
def ecowattCollect (_global : GlobalConfig) (response : EcowattResponse) :
    Except EcoError Points :=
  match response.signals.head? with
  | none => .error .NoSignal
  | some today_signal =>
    let start := Points.new.add
      (Point.builder "ecowatt_signal"
        |>.field "value" (Value.fromU32 today_signal.day_value)
        |>.timestamp today_signal.day
        |>.build)
    .ok
      (today_signal.values.foldl
        (fun pts hourly =>
          pts.add
            (Point.builder "ecowatt_signal"
              |>.field "value" (Value.fromU32 hourly.value)
              |>.timestamp (today_signal.day + 3600 * (hourly.hour : Int))
              |>.build))
        start)

/-- The daily-aggregate point `EcoWatt::collect` builds for the first
signal. -/
def ecowattDaily (s : EcoWattSignal) : Point :=
  Point.builder "ecowatt_signal"
    |>.field "value" (Value.fromU32 s.day_value)
    |>.timestamp s.day
    |>.build

/-- The sub-daily point `EcoWatt::collect` builds for one hourly value
of the first signal. -/
def ecowattHourly (day : Int) (hourly : EcoWattValue) : Point :=
  Point.builder "ecowatt_signal"
    |>.field "value" (Value.fromU32 hourly.value)
    |>.timestamp (day + 3600 * (hourly.hour : Int))
    |>.build

/-!
## Concrete data used to instantiate the theorems
-/

/-- A well-formed eco2mix data row: national scope, a parsable date and
time, and numeric values in every schema-fixed column (column 16 is not
read by the parser). -/
def sampleRow : ByteRecord :=
  [strBytes "France", strBytes "Donnees temps reel", strBytes "2022-05-01",
   strBytes "00:00", strBytes "45000", strBytes "44000", strBytes "44500",
   strBytes "100", strBytes "200", strBytes "3000", strBytes "38000",
   strBytes "1500", strBytes "0", strBytes "5000", strBytes "-1200",
   strBytes "800", strBytes "ignored", strBytes "25"]

/-- The `DailyRow` the sample row parses to. -/
def sampleDailyRow : DailyRow :=
  { date := parisYmdHms 2022 5 1 0 0 0
    generation_total := 45000
    prediction_yesterday := 44000
    prediction_now := 44500
    oil := 100
    coal := 200
    gas := 3000
    nuclear := 38000
    wind := 1500
    solar := 0
    hydro := 5000
    pumped_storage := -1200
    bioenergy := 800
    co2 := 25 }

/-- A sentinel trailer row: its first column starts with the fixed
prefix. -/
def sentinelRow : ByteRecord :=
  [strBytes "RTE ne pourra etre tenue responsable de ces donnees"]

/-- An arbitrary ill-formed row, placed after the sentinel to show it is
ignored. -/
def garbageRow : ByteRecord :=
  [strBytes "not", strBytes "a", strBytes "data", strBytes "row"]

/-- A row whose scope column holds a value other than the national
scope. -/
def badScopeRow : ByteRecord :=
  [strBytes "Allemagne", strBytes "Donnees temps reel", strBytes "2022-05-01",
   strBytes "00:30", strBytes "45000", strBytes "44000", strBytes "44500",
   strBytes "100", strBytes "200", strBytes "3000", strBytes "38000",
   strBytes "1500", strBytes "0", strBytes "5000", strBytes "-1200",
   strBytes "800", strBytes "ignored", strBytes "25"]

/-- A fully-populated row with the generation total at `2^63` and
distinct values in every other quantity. -/
def cexRow : DailyRow :=
  { date := 7
    generation_total := 2 ^ 63
    prediction_yesterday := 11
    prediction_now := 12
    oil := 13
    coal := 14
    gas := 15
    nuclear := 16
    wind := 17
    solar := 18
    hydro := 19
    pumped_storage := -20
    bioenergy := 21
    co2 := 22 }

/-- A source registration whose builder always succeeds with an
empty-result source. -/
def trivSourceReg (n : String) : SourceRegistration String :=
  { name := n, builder := fun _ _ _ => .ok (.ok Points.new) }

/-- A sink registration whose builder always succeeds with an accepting
sink. -/
def trivSinkReg (n : String) : SinkRegistration String :=
  { name := n, builder := fun _ _ => .ok (fun _ => .ok ()) }

/-- A one-point batch used to instantiate the tagging claims. -/
def tagDemoBatch : Points :=
  ⟨[{ name := "n", tags := [("a", "b")], fields := [("f", Value.Integer 1)],
      timestamp := some 3 }]⟩

/-- A decoded EcoWatt signal with two sub-daily values, used to
instantiate the EcoWatt claim. -/
def demoSignal : EcoWattSignal :=
  { day := 86400, day_value := 1, message := "ok",
    values := [{ hour := 0, value := 1 }, { hour := 1, value := 2 }] }

/-- The topology built from registrations a, b, c when the source map is
iterated b first and a second. -/
def demoTopo : Topology String :=
  { data_sources := [⟨"b", Except.ok Points.new⟩, ⟨"a", Except.ok Points.new⟩],
    sinks := [⟨"c", fun _ => Except.ok ()⟩] }

/-!
# Theorems

## Association-list map lemmas
-/

theorem lookupKV_insertKV_self {α : Type} (m : List (String × α)) (k : String) (v : α) :
    lookupKV (insertKV m k v) k = some v := by
  induction m with
  | nil => simp [insertKV, lookupKV]
  | cons hd tl ih =>
    obtain ⟨k', v'⟩ := hd
    by_cases h : k' = k
    · simp [insertKV, lookupKV, h]
    · simp [insertKV, lookupKV, h, ih]

theorem lookupKV_insertKV_ne {α : Type} (m : List (String × α)) (k k' : String) (v : α)
    (h : k' ≠ k) : lookupKV (insertKV m k v) k' = lookupKV m k' := by
  have h' : ¬(k = k') := Ne.symm h
  induction m with
  | nil => simp [insertKV, lookupKV, h']
  | cons hd tl ih =>
    obtain ⟨k₀, v₀⟩ := hd
    by_cases h₀ : k₀ = k
    · subst h₀
      simp [insertKV, lookupKV, h']
    · by_cases h₁ : k₀ = k'
      · simp [insertKV, lookupKV, h₀, h₁, h]
      · simp [insertKV, lookupKV, h₀, h₁, ih]

/-- `insertKV` leaves the key list unchanged when the key is present and
appends the key otherwise. -/
theorem keys_insertKV {α : Type} (m : List (String × α)) (k : String) (v : α) :
    (insertKV m k v).map Prod.fst =
      if k ∈ m.map Prod.fst then m.map Prod.fst else m.map Prod.fst ++ [k] := by
  induction m with
  | nil => simp [insertKV]
  | cons hd tl ih =>
    obtain ⟨k₀, v₀⟩ := hd
    by_cases h₀ : k₀ = k
    · subst h₀
      simp [insertKV]
    · have hne : ¬(k = k₀) := Ne.symm h₀
      by_cases hmem : k ∈ tl.map Prod.fst
      · simp [insertKV, h₀, ih, hmem, hne]
      · simp [insertKV, h₀, ih, hmem, hne]

theorem keysNodup_insertKV {α : Type} (m : List (String × α)) (k : String) (v : α)
    (h : keysNodup m) : keysNodup (insertKV m k v) := by
  unfold keysNodup at h ⊢
  rw [keys_insertKV]
  by_cases hmem : k ∈ m.map Prod.fst
  · simpa [hmem] using h
  · simp only [hmem, if_false]
    simpa [List.nodup_append, hmem] using h

theorem countKey_insertKV {α : Type} (m : List (String × α)) (k : String) (v : α)
    (h : keysNodup m) : countKey (insertKV m k v) k = 1 := by
  induction m with
  | nil => simp [insertKV, countKey]
  | cons hd tl ih =>
    obtain ⟨k₀, v₀⟩ := hd
    have h' : keysNodup tl := by
      unfold keysNodup at h ⊢
      simp only [List.map_cons, List.nodup_cons] at h
      exact h.2
    by_cases h₀ : k₀ = k
    · subst h₀
      have hk : k₀ ∉ tl.map Prod.fst := by
        unfold keysNodup at h
        simp only [List.map_cons, List.nodup_cons] at h
        exact h.1
      have hcount : tl.filter (fun kv => decide (kv.1 = k₀)) = [] := by
        rw [List.filter_eq_nil_iff]
        intro kv hmem
        simp only [decide_eq_true_eq]
        intro he
        exact hk (by simpa [he] using List.mem_map_of_mem Prod.fst hmem)
      simp [insertKV, countKey, List.filter_cons, hcount]
    · simp only [insertKV, if_neg h₀]
      have heq : countKey ((k₀, v₀) :: insertKV tl k v) k = countKey (insertKV tl k v) k := by
        simp [countKey, List.filter_cons, h₀]
      rw [heq]
      exact ih h'

/-!
## C7: numeric conversions into `Value`
-/

/-- C7 (amended): conversion into `Value` is lossless into `Integer` for
`i8`, `i16`, `i32`, `i64`, `u8`, `u16` and `u32`, and for `u64` values
below `2^63`; a `u64` value at or above `2^63` is wrapped by `2^64`
(the source converts with `val as i64`); `f64` converts into `Float` of
the same value. -/
theorem value_conversion_spec :
    (∀ v : Int, Value.fromI8 v = .Integer v)
  ∧ (∀ v : Int, Value.fromI16 v = .Integer v)
  ∧ (∀ v : Int, Value.fromI32 v = .Integer v)
  ∧ (∀ v : Int, Value.fromI64 v = .Integer v)
  ∧ (∀ n : Nat, Value.fromU8 n = .Integer n)
  ∧ (∀ n : Nat, Value.fromU16 n = .Integer n)
  ∧ (∀ n : Nat, Value.fromU32 n = .Integer n)
  ∧ (∀ n : Nat, n < 2 ^ 63 → Value.fromU64 n = .Integer n)
  ∧ (∀ n : Nat, 2 ^ 63 ≤ n → Value.fromU64 n = .Integer ((n : Int) - 2 ^ 64))
  ∧ (∀ bits : Nat, Value.fromF64 bits = .Float bits) := by
  refine ⟨fun _ => rfl, fun _ => rfl, fun _ => rfl, fun _ => rfl, fun _ => rfl,
    fun _ => rfl, fun _ => rfl, ?_, ?_, fun _ => rfl⟩
  · intro n h
    unfold Value.fromU64 i64OfU64
    rw [if_pos h]
  · intro n h
    unfold Value.fromU64 i64OfU64
    rw [if_neg (Nat.not_lt.mpr h)]

/-- C7 witness: the two `u64` branches evaluated at concrete values. -/
theorem value_conversion_spec_witness :
    Value.fromU64 5 = .Integer ((5 : Nat) : Int)
  ∧ Value.fromU64 (2 ^ 63 + 1) = .Integer (((2 ^ 63 + 1 : Nat) : Int) - 2 ^ 64) :=
  ⟨value_conversion_spec.2.2.2.2.2.2.2.1 5 (by norm_num),
   value_conversion_spec.2.2.2.2.2.2.2.2.1 (2 ^ 63 + 1) (by norm_num)⟩

/-- C7 counterexample: the claim that every `u64` converts losslessly
fails at `2^63`, which `val as i64` wraps to `-2^63`. -/
theorem value_fromU64_wraps_counterexample :
    Value.fromU64 (2 ^ 63) = .Integer (-(2 ^ 63 : Int))
  ∧ Value.fromU64 (2 ^ 63) ≠ .Integer (((2 ^ 63 : Nat) : Int)) := by
  constructor
  · simp [Value.fromU64, i64OfU64]
  · simp only [Value.fromU64, i64OfU64]
    norm_num

/-!
## C8: `Points::tag_all`
-/

/-- C8: tagging a batch with `(k, v)` makes every contained point's tag
map send `k` to `v`, leaves every point's name, fields, timestamp and
other tag keys unchanged, preserves the number and order of the points,
and tagging the same batch again with a second value for the same key
leaves exactly one entry for that key, holding the second value. -/
theorem tag_all_spec (ps : Points) (k v : String) :
    ((ps.tag_all k v).points.length = ps.points.length)
  ∧ (∀ (i : Nat) (p q : Point), ps.points[i]? = some p →
      (ps.tag_all k v).points[i]? = some q →
      lookupKV q.tags k = some v ∧ q.name = p.name ∧ q.fields = p.fields
        ∧ q.timestamp = p.timestamp
        ∧ ∀ k' : String, k' ≠ k → lookupKV q.tags k' = lookupKV p.tags k')
  ∧ (∀ (v₂ : String) (i : Nat) (p q : Point), ps.points[i]? = some p →
      ((ps.tag_all k v).tag_all k v₂).points[i]? = some q →
      lookupKV q.tags k = some v₂
        ∧ (keysNodup p.tags → countKey q.tags k = 1)) := by
  refine ⟨by simp [Points.tag_all], ?_, ?_⟩
  · intro i p q hp hq
    simp only [Points.tag_all, List.getElem?_map, hp, Option.map_some'] at hq
    obtain rfl : ({ p with tags := insertKV p.tags k v } : Point) = q := Option.some.inj hq
    exact ⟨lookupKV_insertKV_self _ _ _, rfl, rfl, rfl,
      fun k' hk' => lookupKV_insertKV_ne _ _ _ _ hk'⟩
  · intro v₂ i p q hp hq
    simp only [Points.tag_all, List.getElem?_map, hp, Option.map_some'] at hq
    obtain rfl :
        ({ p with tags := insertKV (insertKV p.tags k v) k v₂ } : Point) = q :=
      Option.some.inj hq
    exact ⟨lookupKV_insertKV_self _ _ _,
      fun hnd => countKey_insertKV _ _ _ (keysNodup_insertKV _ _ _ hnd)⟩

/-- C8 witness: the tagging properties evaluated on a concrete one-point
batch, including overwrite-not-duplicate on a repeated key. -/
theorem tag_all_spec_witness :
    lookupKV [("a", "b"), ("k", "v")] "k" = some "v"
  ∧ lookupKV [("a", "b"), ("k", "v")] "a" = lookupKV [("a", "b")] "a"
  ∧ lookupKV [("a", "b"), ("k", "w")] "k" = some "w"
  ∧ countKey ([("a", "b"), ("k", "w")] : List (String × String)) "k" = 1 := by
  have h1 := (tag_all_spec tagDemoBatch "k" "v").2.1 0
    { name := "n", tags := [("a", "b")], fields := [("f", Value.Integer 1)],
      timestamp := some 3 }
    { name := "n", tags := [("a", "b"), ("k", "v")],
      fields := [("f", Value.Integer 1)], timestamp := some 3 } rfl rfl
  have h2 := (tag_all_spec tagDemoBatch "k" "v").2.2 "w" 0
    { name := "n", tags := [("a", "b")], fields := [("f", Value.Integer 1)],
      timestamp := some 3 }
    { name := "n", tags := [("a", "b"), ("k", "w")],
      fields := [("f", Value.Integer 1)], timestamp := some 3 } rfl rfl
  exact ⟨h1.1, h1.2.2.2.2 "a" (by decide), h2.1, h2.2 (by decide)⟩

/-!
## C3: day-range enumeration
-/

theorem iter_days_of_not_le {a b : Int} (h : ¬ a ≤ b) : iter_days a b = [] := by
  rw [iter_days]
  simp [h]

theorem iter_days_of_le {a b : Int} (h : a ≤ b) :
    iter_days a b = a :: iter_days (a + 1) b := by
  rw [iter_days]
  simp [h]

theorem mem_iter_days (a b d : Int) : d ∈ iter_days a b ↔ a ≤ d ∧ d ≤ b := by
  generalize hn : (b + 1 - a).toNat = n
  induction n generalizing a with
  | zero =>
    rw [iter_days_of_not_le (by omega)]
    simp only [List.not_mem_nil, false_iff]
    omega
  | succ n ih =>
    rw [iter_days_of_le (by omega)]
    simp only [List.mem_cons]
    rw [ih (a + 1) (by omega)]
    omega

theorem length_iter_days (a b : Int) : (iter_days a b).length = (b + 1 - a).toNat := by
  generalize hn : (b + 1 - a).toNat = n
  induction n generalizing a with
  | zero =>
    rw [iter_days_of_not_le (by omega)]
    simp
  | succ n ih =>
    rw [iter_days_of_le (by omega)]
    simp only [List.length_cons]
    rw [ih (a + 1) (by omega)]

theorem chain_iter_days (a b : Int) : (iter_days a b).Chain' (· < ·) := by
  generalize hn : (b + 1 - a).toNat = n
  induction n generalizing a with
  | zero =>
    rw [iter_days_of_not_le (by omega)]
    exact List.chain'_nil
  | succ n ih =>
    rw [iter_days_of_le (by omega), List.chain'_cons']
    refine ⟨?_, ih (a + 1) (by omega)⟩
    intro y hy
    by_cases h2 : a + 1 ≤ b
    · rw [iter_days_of_le h2] at hy
      simp at hy
      omega
    · rw [iter_days_of_not_le h2] at hy
      simp at hy

theorem count_iter_days (a b d : Int) :
    (iter_days a b).count d = if a ≤ d ∧ d ≤ b then 1 else 0 := by
  generalize hn : (b + 1 - a).toNat = n
  induction n generalizing a with
  | zero =>
    have h2 : ¬(a ≤ d ∧ d ≤ b) := by omega
    rw [iter_days_of_not_le (by omega), if_neg h2]
    simp
  | succ n ih =>
    rw [iter_days_of_le (by omega), List.count_cons, ih (a + 1) (by omega)]
    by_cases hd : d = a
    · have h1 : ¬(a + 1 ≤ d ∧ d ≤ b) := by omega
      have h2 : a ≤ d ∧ d ≤ b := by omega
      rw [if_neg h1, if_pos h2]
      simp [hd]
    · by_cases hin : a + 1 ≤ d ∧ d ≤ b
      · have h2 : a ≤ d ∧ d ≤ b := by omega
        rw [if_pos hin, if_pos h2]
        simp [beq_iff_eq, Ne.symm hd]
      · have h2 : ¬(a ≤ d ∧ d ≤ b) := by omega
        rw [if_neg hin, if_neg h2]
        simp [beq_iff_eq, Ne.symm hd]

/-- C3: for `fromDay ≤ toDay` the day enumeration yields exactly
`toDay - fromDay + 1` days, in strictly ascending order, with every day
of the inclusive range appearing exactly once and nothing outside it;
for `fromDay > toDay` it yields no days. -/
theorem iter_days_spec (fromDay toDay : Int) :
    (fromDay ≤ toDay →
        (iter_days fromDay toDay).length = (toDay - fromDay + 1).toNat
      ∧ (iter_days fromDay toDay).Chain' (· < ·)
      ∧ (∀ d : Int, fromDay ≤ d → d ≤ toDay → (iter_days fromDay toDay).count d = 1)
      ∧ (∀ d : Int, d ∈ iter_days fromDay toDay → fromDay ≤ d ∧ d ≤ toDay))
  ∧ (toDay < fromDay → iter_days fromDay toDay = []) := by
  refine ⟨fun _ => ⟨?_, chain_iter_days _ _, fun d h1 h2 => ?_,
    fun d hd => (mem_iter_days _ _ _).1 hd⟩, fun h => iter_days_of_not_le (by omega)⟩
  · rw [length_iter_days]
    congr 1
    omega
  · rw [count_iter_days, if_pos ⟨h1, h2⟩]

/-- C3 witness: the enumeration evaluated on a nonempty range and on an
inverted range. -/
theorem iter_days_spec_witness :
    (iter_days 3 5).length = ((5 : Int) - 3 + 1).toNat
  ∧ (iter_days 3 5).count 4 = 1
  ∧ iter_days 9 2 = [] :=
  ⟨((iter_days_spec 3 5).1 (by norm_num)).1,
   ((iter_days_spec 3 5).1 (by norm_num)).2.2.1 4 (by norm_num) (by norm_num),
   (iter_days_spec 9 2).2 (by norm_num)⟩

/-!
## C10: `EcoWatt::collect`
-/

theorem foldl_add_map {β : Type} (f : β → Point) (vs : List β) (ps : Points) :
    vs.foldl (fun acc v => acc.add (f v)) ps = ⟨ps.points ++ vs.map f⟩ := by
  induction vs generalizing ps with
  | nil =>
    cases ps
    simp
  | cons hd tl ih =>
    rw [List.foldl_cons, ih]
    simp [Points.add]

/-- C10: on a decoded EcoWatt response, `collect` fails with `NoSignal`
exactly when the signals array is empty; otherwise it returns one
daily-aggregate point followed by one point per sub-daily value of the
first signal — `1 + n` points, each hourly point timestamped
`day + hour` — with the later signals and the configured date range
never influencing the result. -/
theorem ecowatt_collect_spec (g : GlobalConfig) (response : EcowattResponse) :
    (ecowattCollect g response = .error .NoSignal ↔ response.signals = [])
  ∧ (∀ (s : EcoWattSignal) (rest : List EcoWattSignal),
      response.signals = s :: rest →
      ecowattCollect g response =
        .ok ⟨ecowattDaily s :: s.values.map (ecowattHourly s.day)⟩)
  ∧ (∀ (s : EcoWattSignal) (rest : List EcoWattSignal),
      response.signals = s :: rest →
      ∃ pts, ecowattCollect g response = .ok pts
        ∧ pts.points.length = 1 + s.values.length) := by
  have hpos : ∀ (s : EcoWattSignal) (rest : List EcoWattSignal),
      response.signals = s :: rest →
      ecowattCollect g response =
        .ok ⟨ecowattDaily s :: s.values.map (ecowattHourly s.day)⟩ := by
    intro s rest hs
    unfold ecowattCollect
    rw [hs]
    simp only [List.head?_cons]
    show Except.ok
        (s.values.foldl (fun acc v => acc.add (ecowattHourly s.day v))
          (Points.new.add (ecowattDaily s))) = _
    rw [foldl_add_map]
    rfl
  refine ⟨⟨?_, ?_⟩, hpos, ?_⟩
  · intro h
    cases hsig : response.signals with
    | nil => rfl
    | cons s rest =>
      rw [hpos s rest hsig] at h
      exact absurd h (by simp)
  · intro h
    unfold ecowattCollect
    rw [h]
    rfl
  · intro s rest hs
    refine ⟨_, hpos s rest hs, ?_⟩
    simp [Nat.add_comm]

/-- C10 witness: the EcoWatt collection evaluated on an empty response
and on a response whose first signal has two sub-daily values. -/
theorem ecowatt_collect_spec_witness :
    ecowattCollect { from_date := 0, to_date := 0 } { signals := [demoSignal] }
      = .ok ⟨ecowattDaily demoSignal ::
          demoSignal.values.map (ecowattHourly demoSignal.day)⟩
  ∧ ecowattCollect { from_date := 0, to_date := 0 } { signals := [] }
      = .error .NoSignal :=
  ⟨(ecowatt_collect_spec _ _).2.1 demoSignal [] rfl,
   (ecowatt_collect_spec _ _).1.mpr rfl⟩

/-!
## C4: sentinel trailer rows contribute nothing
-/

/-- C4: a row whose first column starts with the fixed sentinel prefix,
together with every row after it in file order, contributes nothing to
`read`'s result, whatever those rows contain and however many there are
— reading the table equals reading only the rows before the sentinel,
and dropping them is not an error. -/
theorem read_stops_at_sentinel (xs ys : List ByteRecord) (s : ByteRecord)
    (hs : is_end_record s = true) :
    read (xs ++ s :: ys) = read xs := by
  induction xs with
  | nil =>
    simp [read, hs]
  | cons r xs ih =>
    simp only [List.cons_append, read, List.append_eq]
    rw [ih]

/-- C4 witness: a table of one valid row, a sentinel row and one
ill-formed row after it evaluates like the one-row table. -/
theorem read_stops_at_sentinel_witness :
    is_end_record sentinelRow = true
  ∧ read ([sampleRow] ++ sentinelRow :: [garbageRow]) = read [sampleRow] :=
  ⟨by decide, read_stops_at_sentinel [sampleRow] [garbageRow] sentinelRow (by decide)⟩

/-!
## C5: a non-national scope is a hard failure
-/

/-- C5: if every row before it parses and is not a sentinel, a
pre-sentinel row whose first (scope) column is not exactly "France"
makes `read` fail with `InvalidScope` carrying the offending value —
the single bad row fails the whole day's parse and is not skipped. -/
theorem read_invalid_scope (pre rest : List ByteRecord) (r : ByteRecord)
    (scope : List Nat)
    (hpre : ∀ x ∈ pre, is_end_record x = false ∧ (DailyRow.from_record x).isOk = true)
    (hr : r[0]? = some scope)
    (hscope : scope ≠ strBytes "France")
    (hrend : is_end_record r = false) :
    read (pre ++ r :: rest) = .error (.InvalidScope (fromUtf8Lossy scope)) := by
  induction pre with
  | nil =>
    have hrec : DailyRow.from_record r = .error (.InvalidScope (fromUtf8Lossy scope)) := by
      unfold DailyRow.from_record
      rw [hr]
      simp [hscope]
    simp [read, hrend, hrec]
  | cons x pre ih =>
    obtain ⟨hx, hxok⟩ := hpre x (List.mem_cons_self x pre)
    have hpre' := fun y hy => hpre y (List.mem_cons_of_mem x hy)
    cases hrec : DailyRow.from_record x with
    | error e =>
      rw [hrec] at hxok
      simp [Except.isOk, Except.toBool] at hxok
    | ok row =>
      simp [read, hx, hrec, ih hpre']

/-- C5 witness: a valid row followed by a row with scope "Allemagne"
fails the whole parse with that scope in the error. -/
theorem read_invalid_scope_witness :
    read ([sampleRow] ++ badScopeRow :: [garbageRow])
      = .error (.InvalidScope "Allemagne") :=
  read_invalid_scope [sampleRow] [garbageRow] badScopeRow (strBytes "Allemagne")
    (by
      intro x hx
      simp only [List.mem_singleton] at hx
      subst hx
      exact ⟨by decide, by decide⟩)
    rfl (by decide) (by decide)

/-!
## C6: `DailyRow` to `Point` conversion
-/

/-- C6 (amended): converting a fully-populated `DailyRow` to a `Point`
produces exactly eleven fields — one per numeric quantity except the
two forecast values, which the conversion does not emit — and reading
each emitted field back by its key reproduces the original numeric
value exactly provided the `u64` quantities fit in `i64` (below
`2^63`); the pumped-storage value is carried as a signed integer,
preserving its sign, and the point bears the row's UTC timestamp and
the series name. -/
theorem ofDailyRow_roundtrip (r : DailyRow)
    (h1 : r.generation_total < 2 ^ 63) (h2 : r.oil < 2 ^ 63)
    (h3 : r.coal < 2 ^ 63) (h4 : r.gas < 2 ^ 63) (h5 : r.nuclear < 2 ^ 63)
    (h6 : r.wind < 2 ^ 63) (h7 : r.solar < 2 ^ 63) (h8 : r.hydro < 2 ^ 63)
    (h9 : r.bioenergy < 2 ^ 63) (h10 : r.co2 < 2 ^ 63) :
    (Point.ofDailyRow r).fields.length = 11
  ∧ lookupKV (Point.ofDailyRow r).fields "generation_total"
      = some (.Integer (r.generation_total : Int))
  ∧ lookupKV (Point.ofDailyRow r).fields "oil" = some (.Integer (r.oil : Int))
  ∧ lookupKV (Point.ofDailyRow r).fields "coal" = some (.Integer (r.coal : Int))
  ∧ lookupKV (Point.ofDailyRow r).fields "gas" = some (.Integer (r.gas : Int))
  ∧ lookupKV (Point.ofDailyRow r).fields "nuclear" = some (.Integer (r.nuclear : Int))
  ∧ lookupKV (Point.ofDailyRow r).fields "wind" = some (.Integer (r.wind : Int))
  ∧ lookupKV (Point.ofDailyRow r).fields "solar" = some (.Integer (r.solar : Int))
  ∧ lookupKV (Point.ofDailyRow r).fields "hydro" = some (.Integer (r.hydro : Int))
  ∧ lookupKV (Point.ofDailyRow r).fields "pumped_storage"
      = some (.Integer r.pumped_storage)
  ∧ lookupKV (Point.ofDailyRow r).fields "bioenergy" = some (.Integer (r.bioenergy : Int))
  ∧ lookupKV (Point.ofDailyRow r).fields "co2" = some (.Integer (r.co2 : Int))
  ∧ (Point.ofDailyRow r).timestamp = some r.date
  ∧ (Point.ofDailyRow r).name = "eco2mix" := by
  have hfields : (Point.ofDailyRow r).fields =
      [("generation_total", Value.fromU64 r.generation_total),
       ("oil", Value.fromU64 r.oil), ("coal", Value.fromU64 r.coal),
       ("gas", Value.fromU64 r.gas), ("nuclear", Value.fromU64 r.nuclear),
       ("wind", Value.fromU64 r.wind), ("solar", Value.fromU64 r.solar),
       ("hydro", Value.fromU64 r.hydro),
       ("pumped_storage", Value.fromI64 r.pumped_storage),
       ("bioenergy", Value.fromU64 r.bioenergy),
       ("co2", Value.fromU64 r.co2)] := rfl
  have hts : (Point.ofDailyRow r).timestamp = some r.date := rfl
  have hnm : (Point.ofDailyRow r).name = "eco2mix" := rfl
  rw [hfields, hts, hnm]
  simp only [lookupKV, Value.fromU64, Value.fromI64, i64OfU64]
  simp
  omega

/-- C6 witness: the conversion evaluated on the sample row's `DailyRow`,
whose pumped-storage balance is negative. -/
theorem ofDailyRow_roundtrip_witness :
    (Point.ofDailyRow sampleDailyRow).fields.length = 11
  ∧ lookupKV (Point.ofDailyRow sampleDailyRow).fields "generation_total"
      = some (.Integer ((45000 : Nat) : Int))
  ∧ lookupKV (Point.ofDailyRow sampleDailyRow).fields "pumped_storage"
      = some (.Integer sampleDailyRow.pumped_storage) := by
  have h := ofDailyRow_roundtrip sampleDailyRow (by decide) (by decide)
    (by decide) (by decide) (by decide) (by decide) (by decide) (by decide)
    (by decide) (by decide)
  exact ⟨h.1, h.2.1, h.2.2.2.2.2.2.2.2.2.1⟩

/-- C6 counterexample: the conversion emits eleven fields, not one per
each of the thirteen numeric quantities — the two forecasts are dropped
(their values appear under no key at all) — and a `u64` quantity at
`2^63` wraps instead of reading back losslessly. -/
theorem ofDailyRow_counterexample :
    (Point.ofDailyRow cexRow).fields.length = 11
  ∧ ¬(Point.ofDailyRow cexRow).fields.length = 13
  ∧ lookupKV (Point.ofDailyRow cexRow).fields "prediction_yesterday" = none
  ∧ lookupKV (Point.ofDailyRow cexRow).fields "prediction_now" = none
  ∧ ((Point.ofDailyRow cexRow).fields.filter
        (fun kv => decide (kv.2 = .Integer (11 : Int)))).length = 0
  ∧ ((Point.ofDailyRow cexRow).fields.filter
        (fun kv => decide (kv.2 = .Integer (12 : Int)))).length = 0
  ∧ lookupKV (Point.ofDailyRow cexRow).fields "generation_total"
      = some (.Integer (-(2 ^ 63 : Int))) := by
  decide

/-!
## C1: the runner is strictly two-phase with whole-run abort
-/

theorem runSources_error {ε : Type} (acc : Points)
    (pre rest : List (Component (SourceInst ε))) (bad : Component (SourceInst ε))
    (e : ε)
    (hpre : ∀ c ∈ pre, ∃ pts, c.component = Except.ok pts)
    (hbad : bad.component = Except.error e) :
    runSources acc (pre ++ bad :: rest) = .error e := by
  induction pre generalizing acc with
  | nil =>
    simp only [List.nil_append, runSources, Topology.collect, hbad]
  | cons c pre ih =>
    obtain ⟨pts, hc⟩ := hpre c (List.mem_cons_self c pre)
    simp only [List.cons_append, runSources, Topology.collect, hc]
    exact ih _ (fun y hy => hpre y (List.mem_cons_of_mem c hy))

theorem runSinks_error {ε : Type} (batch : Points)
    (spre srest : List (Component (SinkInst ε))) (sbad : Component (SinkInst ε))
    (e : ε)
    (hpre : ∀ c ∈ spre, c.component batch = .ok ())
    (hbad : sbad.component batch = .error e) :
    runSinks batch (spre ++ sbad :: srest) = .error e := by
  induction spre with
  | nil =>
    simp only [List.nil_append, runSinks, hbad]
  | cons c spre ih =>
    have hc := hpre c (List.mem_cons_self c spre)
    simp only [List.cons_append, runSinks, hc]
    exact ih (fun y hy => hpre y (List.mem_cons_of_mem c hy))

/-- C1: the run is strictly two-phase with whole-run abort.  A failing
source makes the run return exactly that error, with the sources after
it and the entire sink list never influencing the result (so no sink is
invoked); when every source succeeds, the run is exactly the delivery
of the single accumulated batch to the sinks in order; a failing sink
— every sink before it having accepted the complete accumulated batch —
makes the run return exactly its error, with the sinks after it never
influencing the result. -/
theorem run_two_phase {ε : Type} :
    (∀ (pre rest : List (Component (SourceInst ε)))
        (bad : Component (SourceInst ε))
        (sinks : List (Component (SinkInst ε))) (e : ε),
      (∀ c ∈ pre, ∃ pts, c.component = Except.ok pts) →
      bad.component = Except.error e →
      run { data_sources := pre ++ bad :: rest, sinks := sinks } = .error e)
  ∧ (∀ (sources : List (Component (SourceInst ε)))
        (sinks : List (Component (SinkInst ε))) (batch : Points),
      runSources Points.new sources = .ok batch →
      run { data_sources := sources, sinks := sinks } = runSinks batch sinks)
  ∧ (∀ (sources : List (Component (SourceInst ε))) (batch : Points)
        (spre srest : List (Component (SinkInst ε)))
        (sbad : Component (SinkInst ε)) (e : ε),
      runSources Points.new sources = .ok batch →
      (∀ c ∈ spre, c.component batch = .ok ()) →
      sbad.component batch = .error e →
      run { data_sources := sources, sinks := spre ++ sbad :: srest }
        = .error e) := by
  refine ⟨?_, ?_, ?_⟩
  · intro pre rest bad sinks e hpre hbad
    unfold run
    rw [runSources_error Points.new pre rest bad e hpre hbad]
  · intro sources sinks batch hs
    unfold run
    rw [hs]
  · intro sources batch spre srest sbad e hs hpre hbad
    unfold run
    rw [hs]
    exact runSinks_error batch spre srest sbad e hpre hbad

/-- C1 witness: a failing second source aborts a concrete run before its
sink; a successful collection delivers the tagged accumulated batch; a
failing sink after an accepting sink aborts with the sink's error. -/
theorem run_two_phase_witness :
    run { data_sources := [⟨"s1", Except.ok tagDemoBatch⟩,
            ⟨"s2", Except.error "boom"⟩],
          sinks := [⟨"k", fun _ => Except.ok ()⟩] } = Except.error "boom"
  ∧ run ({ data_sources := [⟨"s1", Except.ok tagDemoBatch⟩],
           sinks := [⟨"k", fun _ => Except.ok ()⟩] } : Topology String)
      = runSinks (Points.new.merge_with (tagDemoBatch.tag_all "source" "s1"))
          [⟨"k", fun _ => Except.ok ()⟩]
  ∧ run { data_sources := ([] : List (Component (SourceInst String))),
          sinks := [⟨"kgood", fun _ => Except.ok ()⟩,
            ⟨"kbad", fun _ => Except.error "sink down"⟩] }
      = Except.error "sink down" := by
  refine ⟨?_, ?_, ?_⟩
  · exact run_two_phase.1 [⟨"s1", Except.ok tagDemoBatch⟩] []
      ⟨"s2", Except.error "boom"⟩ [⟨"k", fun _ => Except.ok ()⟩] "boom"
      (by
        intro c hc
        simp only [List.mem_singleton] at hc
        subst hc
        exact ⟨tagDemoBatch, rfl⟩)
      rfl
  · exact run_two_phase.2.1 _ _ _ rfl
  · exact run_two_phase.2.2 [] Points.new [⟨"kgood", fun _ => Except.ok ()⟩]
      [] ⟨"kbad", fun _ => Except.error "sink down"⟩ "sink down" rfl
      (by
        intro c hc
        simp only [List.mem_singleton] at hc
        subst hc
        rfl)
      rfl

/-!
## C2: component order and the configuration's maps
-/

theorem buildSources_names {ε : Type} (srcRegs : List (SourceRegistration ε))
    (g : GlobalConfig) (entries : List (String × Toml))
    (comps : List (Component (SourceInst ε)))
    (h : buildSources srcRegs g entries = .ok comps) :
    comps.map Component.name = entries.map Prod.fst := by
  induction entries generalizing comps with
  | nil =>
    simp only [buildSources] at h
    injection h with h
    subst h
    rfl
  | cons kv rest ih =>
    obtain ⟨k, v⟩ := kv
    simp only [buildSources] at h
    cases hb : SourceRegistration.build srcRegs k v g with
    | error e =>
      rw [hb] at h
      exact absurd h (by simp)
    | ok comp =>
      rw [hb] at h
      cases hrest : buildSources srcRegs g rest with
      | error e =>
        rw [hrest] at h
        exact absurd h (by simp)
      | ok comps' =>
        rw [hrest] at h
        injection h with h
        subst h
        simp [ih comps' hrest]

theorem buildSinks_names {ε : Type} (snkRegs : List (SinkRegistration ε))
    (entries : List (String × Toml)) (comps : List (Component (SinkInst ε)))
    (h : buildSinks snkRegs entries = .ok comps) :
    comps.map Component.name = entries.map Prod.fst := by
  induction entries generalizing comps with
  | nil =>
    simp only [buildSinks] at h
    injection h with h
    subst h
    rfl
  | cons kv rest ih =>
    obtain ⟨k, v⟩ := kv
    simp only [buildSinks] at h
    cases hb : SinkRegistration.build snkRegs k v with
    | error e =>
      rw [hb] at h
      exact absurd h (by simp)
    | ok comp =>
      rw [hb] at h
      cases hrest : buildSinks snkRegs rest with
      | error e =>
        rw [hrest] at h
        exact absurd h (by simp)
      | ok comps' =>
        rw [hrest] at h
        injection h with h
        subst h
        simp [ih comps' hrest]

/-- C2 (amended): topology construction preserves the iteration order of
the configuration's maps — the built sources and sinks carry exactly the
map entries' names, in the order the entries are enumerated — and the
runner then collects and delivers in that component order.  The
enumeration order of the `HashMap`s holding the maps is an unspecified
permutation of declaration order, not declaration order itself. -/
theorem readTopology_order {ε : Type} (srcRegs : List (SourceRegistration ε))
    (snkRegs : List (SinkRegistration ε)) (g : GlobalConfig)
    (sources sinks : List (String × Toml)) (topo : Topology ε)
    (h : readTopology srcRegs snkRegs g sources sinks = .ok topo) :
    topo.data_sources.map Component.name = sources.map Prod.fst
  ∧ topo.sinks.map Component.name = sinks.map Prod.fst := by
  unfold readTopology at h
  cases hs : buildSources srcRegs g sources with
  | error e =>
    rw [hs] at h
    exact absurd h (by simp)
  | ok ds =>
    rw [hs] at h
    cases hk : buildSinks snkRegs sinks with
    | error e =>
      rw [hk] at h
      exact absurd h (by simp)
    | ok ks =>
      rw [hk] at h
      injection h with h
      subst h
      exact ⟨buildSources_names _ _ _ _ hs, buildSinks_names _ _ _ hk⟩

/-- C2 witness: a source map iterated b-then-a and a sink map with one
entry produce components named exactly in those orders. -/
theorem readTopology_order_witness :
    demoTopo.data_sources.map Component.name
      = [("b", Toml.int 0), ("a", Toml.int 0)].map Prod.fst
  ∧ demoTopo.sinks.map Component.name = [("c", Toml.int 0)].map Prod.fst :=
  readTopology_order [trivSourceReg "a", trivSourceReg "b"] [trivSinkReg "c"]
    { from_date := 0, to_date := 0 }
    [("b", Toml.int 0), ("a", Toml.int 0)] [("c", Toml.int 0)] demoTopo rfl

/-- C2 counterexample: a configuration whose file declares sources a
then b can legally be enumerated b then a by its `HashMap` (iteration
order is an arbitrary permutation of the entries); topology
construction then orders the sources b before a — not the declaration
order. -/
theorem readTopology_order_counterexample :
    List.Perm [("b", Toml.int 0), ("a", Toml.int 0)]
      [("a", Toml.int 0), ("b", Toml.int 0)]
  ∧ readTopology [trivSourceReg "a", trivSourceReg "b"] []
        { from_date := 0, to_date := 0 }
        [("b", Toml.int 0), ("a", Toml.int 0)] []
      = .ok { data_sources := demoTopo.data_sources, sinks := [] }
  ∧ demoTopo.data_sources.map Component.name = ["b", "a"]
  ∧ ["b", "a"] ≠ ["a", "b"] := by
  refine ⟨List.Perm.swap _ _ _, rfl, rfl, by decide⟩

/-!
## C9: unknown component names
-/

theorem lookupKV_foldl_insert_of_absent {α : Type} (regs : List α)
    (key : α → String) (name : String) (h : ∀ r ∈ regs, key r ≠ name)
    (init : List (String × α)) :
    lookupKV (regs.foldl (fun m r => insertKV m (key r) r) init) name
      = lookupKV init name := by
  induction regs generalizing init with
  | nil => rfl
  | cons r regs ih =>
    rw [List.foldl_cons,
      ih (fun y hy => h y (List.mem_cons_of_mem r hy)) (insertKV init (key r) r)]
    exact lookupKV_insertKV_ne _ _ _ _ (Ne.symm (h r (List.mem_cons_self r regs)))

/-- C9: building a component whose name is absent from the registry
fails with the unknown-component error carrying exactly that name —
lookup is an exact, case-sensitive string match and the registered
builders never influence the result — and a configuration whose sink
map references an unregistered name fails topology construction with
that error. -/
theorem build_unknown_spec {ε : Type} :
    (∀ (regs : List (SourceRegistration ε)) (name : String) (v : Toml)
        (g : GlobalConfig),
      (∀ r ∈ regs, r.name ≠ name) →
      SourceRegistration.build regs name v g = .error (.Unknown name))
  ∧ (∀ (regs : List (SinkRegistration ε)) (name : String) (v : Toml),
      (∀ r ∈ regs, r.name ≠ name) →
      SinkRegistration.build regs name v = .error (.Unknown name))
  ∧ (∀ (srcRegs : List (SourceRegistration ε))
        (snkRegs : List (SinkRegistration ε)) (g : GlobalConfig)
        (sources : List (String × Toml)) (k : String) (v : Toml)
        (comps : List (Component (SourceInst ε))),
      buildSources srcRegs g sources = .ok comps →
      (∀ r ∈ snkRegs, r.name ≠ k) →
      readTopology srcRegs snkRegs g sources [(k, v)]
        = .error (.Sink (.Unknown k) k)) := by
  have hsrc : ∀ (regs : List (SourceRegistration ε)) (name : String) (v : Toml)
      (g : GlobalConfig), (∀ r ∈ regs, r.name ≠ name) →
      SourceRegistration.build regs name v g = .error (.Unknown name) := by
    intro regs name v g h
    unfold SourceRegistration.build
    rw [lookupKV_foldl_insert_of_absent regs (fun r => r.name) name h []]
    rfl
  have hsnk : ∀ (regs : List (SinkRegistration ε)) (name : String) (v : Toml),
      (∀ r ∈ regs, r.name ≠ name) →
      SinkRegistration.build regs name v = .error (.Unknown name) := by
    intro regs name v h
    unfold SinkRegistration.build
    rw [lookupKV_foldl_insert_of_absent regs (fun r => r.name) name h []]
    rfl
  refine ⟨hsrc, hsnk, ?_⟩
  intro srcRegs snkRegs g sources k v comps hbs hk
  unfold readTopology
  rw [hbs]
  have hone : buildSinks snkRegs [(k, v)]
      = (.error (.Sink (.Unknown k) k) : Except ConfigError _) := by
    unfold buildSinks
    rw [hsnk snkRegs k v hk]
  rw [hone]

/-- C9 witness: lookups that differ from a registered name only by case
fail with the unknown-component error naming the requested string, and a
configuration with an unregistered sink name fails construction. -/
theorem build_unknown_spec_witness :
    SourceRegistration.build [trivSourceReg "rte"] "Rte" (Toml.int 0)
        { from_date := 0, to_date := 0 } = .error (.Unknown "Rte")
  ∧ SinkRegistration.build [trivSinkReg "Console"] "console" (Toml.int 0)
      = .error (.Unknown "console")
  ∧ readTopology [trivSourceReg "rte"] [trivSinkReg "Console"]
        { from_date := 0, to_date := 0 } [("rte", Toml.int 0)]
        [("console", Toml.int 0)]
      = .error (.Sink (.Unknown "console") "console") := by
  refine ⟨build_unknown_spec.1 _ _ _ _ ?_, build_unknown_spec.2.1 _ _ _ ?_,
    build_unknown_spec.2.2 _ _ _ _ _ _ [⟨"rte", Except.ok Points.new⟩] rfl ?_⟩
  all_goals
    intro r hr
    simp only [List.mem_singleton] at hr
    subst hr
    decide

end Photon
